import Mathlib

/-!
Verification of the similarity-weighted estimation engine
(`enhanced_main.py`, `hnavi_integration.py`).

Shallow embedding conventions:
* Python `float` arithmetic is embedded as exact rational arithmetic (`ℚ`);
  the algorithms below are plain field arithmetic, so `ℚ` is the
  real-number semantics of the source expressions.
* Python `int(x)` (truncation toward zero) is `pyInt`.
* Python strings are Lean `String`; `str.lower()` is `pyLower`
  (`Char.toLower`, which lowercases ASCII; the Japanese text used by the
  tool is unaffected by lowercasing, exactly as in Python).
* Python sets of strings are `Finset String` where only membership and
  cardinality are consumed; where the source converts a set back to an
  ordered, truncated list (`list(set(xs))[:15]`), the enumeration order of
  the set is implementation-defined in Python (hash randomization), so it
  is passed in explicitly as a function `pySet : List String → List String`
  constrained by `validPySet` (distinct elements, same membership).
* The regular expressions used by the source are alternations of string
  literals; `re.search` is "some alternative occurs as a substring"
  (case-insensitive) and `re.findall` is the standard left-to-right,
  first-alternative, non-overlapping scan (`regexFindallAlts`).
-/

/-- Python `int(q)`: truncation toward zero. -/
def pyInt (q : ℚ) : ℤ := if 0 ≤ q then ⌊q⌋ else -⌊-q⌋

/-- Python `s.lower()` (ASCII lowercasing; sufficient for the source's alphabets). -/
def pyLower (s : String) : String := String.mk (s.data.map Char.toLower)

/-- Substring occurrence on character lists. -/
def subOccurs (needle hay : List Char) : Bool :=
  hay.tails.any (fun t => needle.isPrefixOf t)

/-- Python `needle in hay` on strings. -/
def pyContains (needle hay : String) : Bool := subOccurs needle.data hay.data

/-- `re.search(p, text, re.IGNORECASE)` for a pattern `p` that is an alternation
of string literals: some alternative occurs in the text, case-insensitively. -/
def regexSearchAlts (alts : List String) (text : String) : Bool :=
  alts.any (fun a => pyContains (pyLower a) (pyLower text))

/-- One step of the `re.findall` scan: at each position try the alternatives in
order; on a match emit it and continue after it, otherwise advance one
character.  `fuel` bounds the recursion by the text length.  (The `!a.isEmpty`
guard is vacuous for the source's patterns, whose alternatives are all
non-empty literals.) -/
def findallGo (alts : List (List Char)) : ℕ → List Char → List (List Char)
  | 0, _ => []
  | _, [] => []
  | fuel + 1, c :: rest =>
    match alts.find? (fun a => !a.isEmpty && a.isPrefixOf (c :: rest)) with
    | some a => a :: findallGo alts fuel ((c :: rest).drop a.length)
    | none => findallGo alts fuel rest

/-- `re.findall(p, text, re.IGNORECASE)` for an alternation of literals. -/
def regexFindallAlts (alts : List String) (text : String) : List String :=
  (findallGo (alts.map (fun a => (pyLower a).data)) text.length (pyLower text).data).map
    (fun cs => String.mk cs)

/-- A valid model of Python's `list(set(xs))`: some enumeration of the distinct
elements of `xs`.  Which enumeration Python produces depends on the per-process
string hash seed. -/
def validPySet (f : List String → List String) : Prop :=
  ∀ xs : List String, (f xs).Nodup ∧ ∀ a, a ∈ f xs ↔ a ∈ xs

/-! ### Data model (`enhanced_main.py`) -/

/-- One record of `estimation_data` in `enhanced_main.py`. -/
structure SampleProject where
  title : String
  description : String
  category : String
  hours : ℤ
  cost : ℤ
  features : List String
  company : String
  source : String
  confidence : ℚ
deriving DecidableEq, Inhabited

/-- One element of the `similarities` list built in `estimate_project_enhanced`. -/
structure SimilarityEntry where
  data : SampleProject
  similarity : ℚ
deriving DecidableEq, Inhabited

/-! ### Data model (`hnavi_integration.py`) -/

/-- `ProcessedProject` dataclass of `hnavi_integration.py`. -/
structure ProcessedProject where
  title : String
  description : String
  category : String
  min_price : ℚ
  max_price : ℚ
  avg_price : ℚ
  estimated_hours : ℤ
  technologies : List String
  services : List String
  company_name : String
  source_url : String
  confidence : ℚ
deriving DecidableEq, Inhabited

/-! ### Similarity search (`HnaviDataProcessor.find_similar_projects`) -/

/-- The (total) order by which a stable ascending `np.argsort` arranges the
index list: by value, ties by original index. -/
def argRel (v : List ℚ) (i j : ℕ) : Prop :=
  v.getD i 0 < v.getD j 0 ∨ (v.getD i 0 = v.getD j 0 ∧ i ≤ j)

instance argRelDecidable (v : List ℚ) : DecidableRel (argRel v) := fun i j => by
  unfold argRel
  infer_instance

instance argRelTotal (v : List ℚ) : IsTotal ℕ (argRel v) where
  total i j := by
    unfold argRel
    rcases lt_trichotomy (v.getD i 0) (v.getD j 0) with h | h | h
    · exact Or.inl (Or.inl h)
    · rcases Nat.le_total i j with h' | h'
      · exact Or.inl (Or.inr ⟨h, h'⟩)
      · exact Or.inr (Or.inr ⟨h.symm, h'⟩)
    · exact Or.inr (Or.inl h)

instance argRelTrans (v : List ℚ) : IsTrans ℕ (argRel v) where
  trans i j k hij hjk := by
    unfold argRel at *
    rcases hij with h1 | ⟨h1, h1'⟩
    · rcases hjk with h2 | ⟨h2, _⟩
      · exact Or.inl (h1.trans h2)
      · exact Or.inl (h2 ▸ h1)
    · rcases hjk with h2 | ⟨h2, h2'⟩
      · exact Or.inl (h1 ▸ h2)
      · exact Or.inr ⟨h1.trans h2, h1'.trans h2'⟩

/-- `similarities.argsort()`: an index permutation sorted ascending by score.
The embedding must pick one deterministic permutation; this one breaks ties by
original index.  numpy's default `kind='quicksort'` argsort is documented as
not stable, so the program fixes no tie order in general (it coincides with
this model in numpy's small-array insertion-sort regime, arrays of at most 16
elements).  Accordingly, no universal theorem below asserts anything about the
order of equal scores; tie-order facts are stated only at concrete small
inputs, where this model matches numpy's actual behavior. -/
def argsortAsc (v : List ℚ) : List ℕ :=
  List.insertionSort (argRel v) (List.range v.length)

/-- Python slice `l[-k:]`.  Note the degenerate case: `l[-0:]` is `l[0:]`,
i.e. the whole list. -/
def pyTakeLast (k : ℕ) (l : List α) : List α :=
  if k = 0 then l else l.drop (l.length - k)

/-- The corpus indices produced by `find_similar_projects`:
`argsort()[-top_k:][::-1]` filtered by the 0.1 minimum-similarity threshold. -/
def find_similar_indices (sims : List ℚ) (top_k : ℕ) : List ℕ :=
  ((pyTakeLast top_k (argsortAsc sims)).reverse).filter
    (fun idx => (1 : ℚ) / 10 < sims.getD idx 0)

/-- `HnaviDataProcessor.find_similar_projects` (lines 410..435 of
`hnavi_integration.py`).  `fitted` models `self.vectorizer` being non-`None`
with `self.project_vectors` present; `sims` is the row of cosine similarities
produced by `cosine_similarity(query_vector, self.project_vectors)` (one score
per corpus record, so `sims.length = projects.length` in every real call). -/
def find_similar_projects (projects : List ProcessedProject) (sims : List ℚ)
    (fitted : Bool) (top_k : ℕ) : List (ProcessedProject × ℚ) :=
  if fitted = false then []
  else
    (find_similar_indices sims top_k).map
      (fun idx => (projects.getD idx default, sims.getD idx 0))

/-! ### Keyword extraction and similarity (`enhanced_main.py` lines 177..218) -/

/-- The ten `keyword_patterns` of `extract_keywords`, as alternation lists. -/
def keyword_patterns : List (List String) :=
  [["EC", "通販", "ショッピング", "ecommerce"],
   ["管理", "システム", "業務", "CRM", "ERP"],
   ["予約", "カレンダー", "スケジュール", "booking"],
   ["サイト", "ホームページ", "Web", "website"],
   ["在庫", "商品", "売上", "inventory"],
   ["顧客", "会員", "customer", "member"],
   ["決済", "支払い", "課金", "payment"],
   ["分析", "レポート", "統計", "analytics"],
   ["CMS", "コンテンツ", "記事"],
   ["アプリ", "mobile", "iOS", "Android"]]

/-- `extract_keywords`: the set of lowered `findall` matches over all patterns.
The source returns `list(set(...))`; both call sites immediately convert the
result back to a set, so the set itself is the faithful value. -/
def extract_keywords (text : String) : Finset String :=
  (((keyword_patterns.map (fun alts => regexFindallAlts alts text)).flatten).map pyLower).toFinset

/-- `calculate_similarity_enhanced`: Jaccard similarity of keyword sets,
weighted by the record's stored confidence. -/
def calculate_similarity_enhanced (description : String) (project_data : SampleProject) : ℚ :=
  let desc_keywords := extract_keywords (pyLower description)
  let project_text := project_data.title ++ " " ++ project_data.description ++ " "
      ++ String.intercalate " " project_data.features
  let project_keywords := extract_keywords (pyLower project_text)
  if desc_keywords = ∅ ∧ project_keywords = ∅ then 0
  else
    let inter := desc_keywords ∩ project_keywords
    let uni := desc_keywords ∪ project_keywords
    let similarity := if uni ≠ ∅ then (inter.card : ℚ) / (uni.card : ℚ) else 0
    similarity * (7 / 10 + 3 / 10 * project_data.confidence)

/-! ### Adjustment tables (`enhanced_main.py` lines 121..175) -/

/-- `duration_multipliers` lookup with its `.get(duration, {1.0, "中"})` default:
returns (multiplier, risk). -/
def duration_info (duration : String) : ℚ × String :=
  if duration = "1month" then (9 / 5, "高")
  else if duration = "2months" then (7 / 5, "中")
  else if duration = "3months" then (11 / 10, "低")
  else if duration = "4-6months" then (1, "低")
  else if duration = "6-12months" then (6 / 5, "中")
  else if duration = "1year+" then (3 / 2, "高")
  else (1, "中")

/-- The six recognized duration keys. -/
def duration_keys : List String :=
  ["1month", "2months", "3months", "4-6months", "6-12months", "1year+"]

/-- `calculate_duration_impact`: `(int(base_hours * multiplier), multiplier)`. -/
def calculate_duration_impact (duration : String) (base_hours : ℤ) : ℤ × ℚ :=
  (pyInt ((base_hours : ℚ) * (duration_info duration).1), (duration_info duration).1)

/-- One row of the `user_scale_adjustments` table. -/
structure UserScaleInfo where
  multiplier : ℚ
  infrastructure : String
  additional_features : List String
  tech_requirements : String
deriving DecidableEq, Inhabited

/-- `user_scale_adjustments` lookup; an unrecognized key falls back to the
`"medium"` row (`.get(users, user_scale_adjustments["medium"])`). -/
def user_scale_adjustments (users : String) : UserScaleInfo :=
  if users = "small" then
    ⟨1, "基本", ["基本認証", "簡易管理画面"], "標準的な構成"⟩
  else if users = "medium" then
    ⟨13 / 10, "スケーラブル", ["ロードバランサー", "DB最適化", "キャッシュシステム"],
     "中規模対応・パフォーマンス最適化"⟩
  else if users = "large" then
    ⟨9 / 5, "高可用性", ["CDN", "冗長化", "監視システム", "自動スケーリング"],
     "大規模対応・高可用性設計"⟩
  else if users = "enterprise" then
    ⟨5 / 2, "エンタープライズ", ["マイクロサービス", "API Gateway", "セキュリティ強化", "バックアップシステム"],
     "エンタープライズ級・セキュリティ重視"⟩
  else if users = "public" then
    ⟨11 / 5, "パブリック対応", ["DDoS対策", "グローバルCDN", "多言語対応", "アクセス解析"],
     "パブリック向け・グローバル対応"⟩
  else
    ⟨13 / 10, "スケーラブル", ["ロードバランサー", "DB最適化", "キャッシュシステム"],
     "中規模対応・パフォーマンス最適化"⟩

/-- `calculate_user_scale_impact`: `(int(base_cost * multiplier), user_info)`. -/
def calculate_user_scale_impact (users : String) (base_cost : ℤ) : ℤ × UserScaleInfo :=
  let info := user_scale_adjustments users
  (pyInt ((base_cost : ℚ) * info.multiplier), info)

/-! ### Feature inference (`estimate_features_with_requirements`, lines 220..269) -/

/-- The `feature_mapping` table: (regex alternation, implied feature tags). -/
def feature_mapping : List (List String × List String) :=
  [(["EC", "通販", "ショッピング", "商品"], ["商品管理", "在庫管理", "決済システム", "顧客管理", "注文管理"]),
   (["予約", "カレンダー", "スケジュール", "booking"], ["予約管理", "カレンダー機能", "通知機能", "顧客管理"]),
   (["管理", "システム", "業務", "CRM", "ERP"], ["データ管理", "レポート機能", "ユーザー管理", "権限管理"]),
   (["サイト", "ホームページ", "Web", "website"], ["レスポンシブ対応", "問い合わせ機能", "CMS", "SEO対策"]),
   (["アプリ", "mobile", "iOS", "Android"], ["モバイル対応", "プッシュ通知", "オフライン機能", "位置情報"]),
   (["在庫", "inventory"], ["入出庫管理", "在庫数管理", "アラート機能", "棚卸し機能"]),
   (["顧客", "会員", "customer", "CRM"], ["顧客管理", "会員登録", "マイページ", "履歴管理"]),
   (["決済", "payment", "支払い"], ["決済システム", "請求管理", "売上管理", "返金処理"]),
   (["分析", "レポート", "統計", "analytics"], ["データ分析", "レポート機能", "ダッシュボード", "KPI管理"])]

/-- `estimate_features_with_requirements`.  `pySet` stands for Python's
`list(set(...))`, whose enumeration order is hash-seed dependent. -/
def estimate_features_with_requirements (pySet : List String → List String)
    (description duration users : String) : List String :=
  let features :=
    (feature_mapping.map (fun p => if regexSearchAlts p.1 description then p.2 else [])).flatten
  let features :=
    if duration = "1month" then
      ((features.filter
          (fun f => ["認証機能", "基本CRUD", "管理画面"].any (fun pf => pyContains pf f))).take 8)
        ++ ["MVP機能限定"]
    else if duration = "4-6months" ∨ duration = "6-12months" ∨ duration = "1year+" then
      features ++ ["高度なレポート機能", "ワークフロー管理", "外部システム連携"]
    else features
  let features :=
    if users = "large" ∨ users = "enterprise" ∨ users = "public" then
      features ++ ["負荷分散機能", "パフォーマンス監視", "セキュリティ強化", "スケーリング対応", "冗長化システム"]
    else if users = "small" then
      features.filter
        (fun f => !(["高度", "複雑", "エンタープライズ"].any (fun t => pyContains t (pyLower f))))
    else features
  let features := features ++ ["認証機能", "管理画面", "API連携", "セキュリティ対策", "バックアップ機能"]
  (pySet features).take 15

/-! ### Phase decomposition (`calculate_phases_enhanced`, lines 271..353) -/

/-- A category's ratio row: (要件定義・設計, 開発, テスト, デザイン). -/
structure PhaseRatioRow where
  reqDesign : ℚ
  development : ℚ
  testing : ℚ
  visualDesign : ℚ
deriving DecidableEq, Inhabited

/-- The `phase_ratios` table with its `"default"` fallback row
(`phase_ratios.get(category, phase_ratios["default"])`). -/
def phase_ratio_table (category : String) : PhaseRatioRow :=
  if category = "EC・通販" then ⟨1/4, 9/20, 1/5, 1/10⟩
  else if category = "業務システム" then ⟨3/10, 1/2, 3/20, 1/20⟩
  else if category = "予約・管理" then ⟨1/5, 1/2, 1/5, 1/10⟩
  else if category = "コーポレート" then ⟨3/20, 2/5, 3/20, 3/10⟩
  else ⟨1/5, 1/2, 1/5, 1/10⟩

/-- The duration perturbation of the ratio row (lines 310..319). -/
def adjust_shares_for_duration (r : PhaseRatioRow) (duration : String) : PhaseRatioRow :=
  if duration = "1month" then
    { r with reqDesign := r.reqDesign * (7/10), development := r.development * (11/10),
             testing := r.testing * (6/5) }
  else if duration = "6-12months" ∨ duration = "1year+" then
    { r with reqDesign := r.reqDesign * (13/10), testing := r.testing * (7/5),
             development := r.development * (9/10) }
  else r

/-- The user-scale perturbation of the ratio row (lines 321..330). -/
def adjust_shares_for_users (r : PhaseRatioRow) (users : String) : PhaseRatioRow :=
  if users = "large" ∨ users = "enterprise" ∨ users = "public" then
    { r with reqDesign := r.reqDesign * (7/5), testing := r.testing * (8/5),
             development := r.development * (9/10) }
  else if users = "small" then
    { r with reqDesign := r.reqDesign * (4/5), development := r.development * (6/5) }
  else r

/-- Both perturbations, in the source's order. -/
def perturbed_shares (category duration users : String) : PhaseRatioRow :=
  adjust_shares_for_users (adjust_shares_for_duration (phase_ratio_table category) duration) users

/-- `sum(ratios.values())`. -/
def sumRow (r : PhaseRatioRow) : ℚ :=
  r.reqDesign + r.development + r.testing + r.visualDesign

/-- The normalization step (lines 332..335): divide every ratio by the
perturbed sum. -/
def normalized_shares (category duration users : String) : PhaseRatioRow :=
  let p := perturbed_shares category duration users
  let t := sumRow p
  ⟨p.reqDesign / t, p.development / t, p.testing / t, p.visualDesign / t⟩

/-- One phase's `{hours, cost}` entry. -/
structure PhaseLine where
  hours : ℤ
  cost : ℤ
deriving DecidableEq, Inhabited

/-- The full phase map keyed 要件定義・設計 / 開発 / テスト / デザイン. -/
structure PhaseMap where
  reqDesign : PhaseLine
  development : PhaseLine
  testing : PhaseLine
  visualDesign : PhaseLine
deriving DecidableEq, Inhabited

/-- `calculate_phases_enhanced` (lines 337..353): `hours = int(total_hours *
ratio)` per phase, priced 7000/h for 要件定義・設計, 6000/h for デザイン and
5000/h otherwise. -/
def calculate_phases_enhanced (total_hours : ℤ) (category duration users : String) : PhaseMap :=
  let r := normalized_shares category duration users
  let h1 := pyInt ((total_hours : ℚ) * r.reqDesign)
  let h2 := pyInt ((total_hours : ℚ) * r.development)
  let h3 := pyInt ((total_hours : ℚ) * r.testing)
  let h4 := pyInt ((total_hours : ℚ) * r.visualDesign)
  ⟨⟨h1, h1 * 7000⟩, ⟨h2, h2 * 5000⟩, ⟨h3, h3 * 5000⟩, ⟨h4, h4 * 6000⟩⟩

/-! ### Aggregation (`estimate_project_enhanced`, lines 367..456) -/

/-- The descending-score preorder used by
`similarities.sort(key=lambda x: x["similarity"], reverse=True)`. -/
def simDescRel (a b : SimilarityEntry) : Prop := b.similarity ≤ a.similarity

instance simDescRelDecidable : DecidableRel simDescRel := fun a b => by
  unfold simDescRel
  infer_instance

instance simDescRelTotal : IsTotal SimilarityEntry simDescRel where
  total a b := by
    unfold simDescRel
    exact le_total b.similarity a.similarity

instance simDescRelTrans : IsTrans SimilarityEntry simDescRel where
  trans a b c hab hbc := by
    unfold simDescRel at *
    exact hbc.trans hab

/-- `similarities.sort(key=lambda x: x["similarity"], reverse=True)`:
Python's stable descending sort by score. -/
def pySortDesc (l : List SimilarityEntry) : List SimilarityEntry :=
  List.insertionSort simDescRel l

/-- The positive-similarity entries among `top_similar = similarities[:3]`
(the pairs actually cited and weighted). -/
def top_positive (similarities : List SimilarityEntry) : List SimilarityEntry :=
  ((pySortDesc similarities).take 3).filter (fun s => 0 < s.similarity)

/-- The base estimate produced by lines 382..401. -/
structure BaseEstimate where
  weighted_hours : ℚ
  weighted_cost : ℚ
  confidence : ℚ
  data_source : String
deriving DecidableEq, Inhabited

/-- Lines 382..401 of `estimate_project_enhanced`: sort, take the top 3,
branch on `top_similar[0]["similarity"] > 0` and compute the
similarity-weighted base values.  On an empty corpus `top_similar[0]` raises
`IndexError` (caught at the endpoint boundary and re-raised as HTTP 500);
that error path is `none`. -/
def estimate_base (similarities : List SimilarityEntry) : Option BaseEstimate :=
  match pySortDesc similarities with
  | [] => none
  | first :: _ =>
    if 0 < first.similarity then
      let pos := top_positive similarities
      let total_weight := (pos.map (fun s => s.similarity)).sum
      let weighted_hours :=
        if 0 < total_weight then
          ((pos.map (fun s => (s.data.hours : ℚ) * s.similarity)).sum) / total_weight
        else 400
      let weighted_cost :=
        if 0 < total_weight then
          ((pos.map (fun s => (s.data.cost : ℚ) * s.similarity)).sum) / total_weight
        else 2000000
      some ⟨weighted_hours, weighted_cost, first.similarity, "サンプルデータベース"⟩
    else
      some ⟨400, 2000000, 3/10, "デフォルト見積もり"⟩

/-- The `EstimationResult` model.  `similar_projects` keeps the cited records
with their similarity scores (the source additionally renders them as
formatted strings, a presentation detail). -/
structure EstimationResult where
  project_description : String
  estimated_features : List String
  total_hours : ℤ
  total_cost : ℤ
  phases : PhaseMap
  similar_projects : List (SampleProject × ℚ)
  confidence_score : ℚ
  data_source : String
deriving DecidableEq, Inhabited

/-- The `similarities` list built in lines 374..380. -/
def similarity_entries (estimation_data : List SampleProject) (description : String) :
    List SimilarityEntry :=
  estimation_data.map (fun s => ⟨s, calculate_similarity_enhanced description s⟩)

/-- `estimate_project_enhanced` (lines 367..456).  `pySet` models Python's
hash-seed dependent `list(set(...))` enumeration; every other step is a pure
function of the request and corpus. -/
def estimate_project_enhanced (pySet : List String → List String)
    (estimation_data : List SampleProject)
    (description : String) (category : Option String) (duration users : String) :
    Option EstimationResult :=
  let similarities := similarity_entries estimation_data description
  match estimate_base similarities with
  | none => none
  | some b =>
    let estimated_hours := pyInt b.weighted_hours
    let estimated_cost := pyInt b.weighted_cost
    let final_hours := (calculate_duration_impact duration estimated_hours).1
    let scaled := calculate_user_scale_impact users estimated_cost
    let final_cost := scaled.1
    let user_info := scaled.2
    let features0 := estimate_features_with_requirements pySet description duration users
    let features := (pySet (features0 ++ user_info.additional_features.take 3)).take 15
    let estimated_category := category.getD "その他"
    let phases := calculate_phases_enhanced final_hours estimated_category duration users
    let similar_projects :=
      (((pySortDesc similarities).take 3).filter (fun s => 0 < s.similarity)).map
        (fun s => (s.data, s.similarity))
    some ⟨description, features, final_hours, final_cost, phases, similar_projects,
          b.confidence * (9/10),
          b.data_source ++ " (期間:" ++ duration ++ ", 規模:" ++ user_info.infrastructure ++ ")"⟩

/-- Sample record used by concrete witnesses. -/
def witnessRecord : SampleProject :=
  ⟨"ECサイト構築", "商品管理を含むECサイト", "EC・通販", 880, 5500000,
   ["商品管理"], "ECソリューション株式会社", "https://hnavi.co.jp/company/ec-solution", 9/10⟩

/-- Second sample record used by concrete witnesses. -/
def witnessRecordB : SampleProject :=
  ⟨"予約管理システム", "オンライン予約を含む予約システム", "予約・管理", 440, 2750000,
   ["予約管理"], "リザーブテック株式会社", "https://hnavi.co.jp/company/reserve-tech", 8/10⟩

/-- Record whose only keyword is 予約, with stored confidence 1 (so its
similarity against the query "予約" is exactly 1). -/
def recYoyaku : SampleProject := ⟨"予約", "", "", 400, 2000000, [], "", "", 1⟩

/-- Record with stored confidence 1/2; against the query "予約" its similarity
is 1 * (0.7 + 0.3 * 0.5) = 17/20. -/
def recHalfConf : SampleProject := ⟨"予約", "", "", 440, 2750000, [], "", "", 1/2⟩

/-- Record with no extractable keywords at all. -/
def recPlain : SampleProject := ⟨"x", "y", "", 400, 2000000, [], "", "", 1⟩

/-- Modelled from the spec (§4.3), as the refinement target for the confidence
contract: the similarity-weighted mean of the matched records' stored
confidence fields, scaled down by 0.9. -/
def spec_confidence_value (sims : List SimilarityEntry) : ℚ :=
  (((top_positive sims).map (fun s => s.data.confidence * s.similarity)).sum
      / ((top_positive sims).map (fun s => s.similarity)).sum) * (9 / 10)

/-- Concrete corpus records for the tie-break counterexample (integer-valued
fields so that every comparison is kernel-decidable). -/
def projA : ProcessedProject :=
  ⟨"A社ECサイト開発", "ECサイト", "EC・通販", 100, 200, 150, 240, [], [], "A社", "", 1⟩

/-- Second record, identical score profile to `projA`, later in the corpus. -/
def projB : ProcessedProject :=
  ⟨"B社ECサイト開発", "ECサイト", "EC・通販", 100, 200, 150, 240, [], [], "B社", "", 1⟩

/-! ### Basic lemmas -/

/-- `int()` of an integer value is the identity. -/
lemma pyInt_intCast (n : ℤ) : pyInt (n : ℚ) = n := by
  unfold pyInt
  split_ifs with h
  · exact Int.floor_intCast n
  · rw [← Int.cast_neg, Int.floor_intCast]
    omega

/-- On non-negative rationals, Python truncation is the floor. -/
lemma pyInt_eq_floor {q : ℚ} (h : 0 ≤ q) : pyInt q = ⌊q⌋ := by
  unfold pyInt
  exact if_pos h

lemma pyInt_mul_one (n : ℤ) : pyInt ((n : ℚ) * 1) = n := by
  rw [mul_one, pyInt_intCast]

lemma sorted_pySortDesc (l : List SimilarityEntry) :
    List.Sorted simDescRel (pySortDesc l) :=
  List.sorted_insertionSort simDescRel l

lemma perm_pySortDesc (l : List SimilarityEntry) : (pySortDesc l).Perm l :=
  List.perm_insertionSort simDescRel l

/-! ### C8: duration multipliers -/

lemma duration_info_of_unknown (d : String) (hd : d ∉ duration_keys) :
    duration_info d = (1, "中") := by
  simp only [duration_keys, List.mem_cons, List.not_mem_nil, or_false, not_or] at hd
  obtain ⟨h1, h2, h3, h4, h5, h6⟩ := hd
  simp [duration_info, h1, h2, h3, h4, h5, h6]

/-- **C8** — Duration key `"1month"` multiplies base hours by exactly 1.8
(`adjusted = int(base_hours * 1.8)`, multiplier 9/5), key `"4-6months"` leaves
hours unchanged (multiplier 1), and any key outside the duration table behaves
as multiplier 1, leaving hours unchanged. -/
theorem c8_duration_factor (b : ℤ) :
    calculate_duration_impact "1month" b = (pyInt ((b : ℚ) * (9 / 5)), 9 / 5) ∧
    calculate_duration_impact "4-6months" b = (b, 1) ∧
    ∀ d : String, d ∉ duration_keys → calculate_duration_impact d b = (b, 1) := by
  refine ⟨rfl, ?_, ?_⟩
  · show (pyInt ((b : ℚ) * 1), (1 : ℚ)) = (b, 1)
    rw [pyInt_mul_one]
  · intro d hd
    unfold calculate_duration_impact
    rw [duration_info_of_unknown d hd]
    show (pyInt ((b : ℚ) * 1), (1 : ℚ)) = (b, 1)
    rw [pyInt_mul_one]

/-- Witness for C8 at concrete inputs. -/
theorem c8_duration_factor_witness :
    calculate_duration_impact "1month" 10 = (18, 9 / 5) ∧
    calculate_duration_impact "4-6months" 10 = (10, 1) ∧
    calculate_duration_impact "9weeks" 10 = (10, 1) := by
  refine ⟨?_, (c8_duration_factor 10).2.1, (c8_duration_factor 10).2.2 "9weeks" (by decide)⟩
  rw [(c8_duration_factor 10).1]
  norm_num [pyInt]

/-! ### C2: cold behavior of search and aggregator -/

/-- **C2** — The similarity search degrades cleanly: with an unready vector
index it returns the empty sequence, and over an empty corpus (an empty
similarity row) it also returns the empty sequence.  The aggregator, however,
does NOT return the documented defaults on an empty corpus: `top_similar[0]`
raises `IndexError` there (the `none` branch of `estimate_base`), which the
endpoint converts to an HTTP 500 — contradicting the claim's
"returns the fixed default base values … without throwing". -/
theorem c2_cold_behavior (projects : List ProcessedProject) (sims : List ℚ) (k : ℕ) :
    find_similar_projects projects sims false k = [] ∧
    find_similar_projects projects [] true k = [] ∧
    estimate_base [] = none := by
  refine ⟨rfl, ?_, rfl⟩
  simp [find_similar_projects, find_similar_indices, argsortAsc, pyTakeLast]

/-! ### C6 / C7: phase shares -/

/-- All four entries of a ratio row are positive. -/
def rowPos (r : PhaseRatioRow) : Prop :=
  0 < r.reqDesign ∧ 0 < r.development ∧ 0 < r.testing ∧ 0 < r.visualDesign

lemma phase_ratio_table_pos (category : String) : rowPos (phase_ratio_table category) := by
  unfold phase_ratio_table rowPos
  split_ifs <;> norm_num

lemma adjust_shares_for_duration_pos (r : PhaseRatioRow) (duration : String)
    (h : rowPos r) : rowPos (adjust_shares_for_duration r duration) := by
  obtain ⟨h1, h2, h3, h4⟩ := h
  unfold adjust_shares_for_duration rowPos
  split_ifs <;>
    exact ⟨by positivity, by positivity, by positivity, by positivity⟩

lemma adjust_shares_for_users_pos (r : PhaseRatioRow) (users : String)
    (h : rowPos r) : rowPos (adjust_shares_for_users r users) := by
  obtain ⟨h1, h2, h3, h4⟩ := h
  unfold adjust_shares_for_users rowPos
  split_ifs <;>
    exact ⟨by positivity, by positivity, by positivity, by positivity⟩

lemma perturbed_shares_pos (category duration users : String) :
    rowPos (perturbed_shares category duration users) :=
  adjust_shares_for_users_pos _ _
    (adjust_shares_for_duration_pos _ _ (phase_ratio_table_pos category))

lemma sumRow_pos {r : PhaseRatioRow} (h : rowPos r) : 0 < sumRow r := by
  obtain ⟨h1, h2, h3, h4⟩ := h
  unfold sumRow
  positivity

/-- The normalized shares are positive and sum to exactly 1. -/
lemma normalized_shares_sum_one (category duration users : String) :
    sumRow (normalized_shares category duration users) = 1 := by
  have hp := perturbed_shares_pos category duration users
  have ht := sumRow_pos hp
  unfold normalized_shares sumRow
  rw [div_add_div_same, div_add_div_same, div_add_div_same]
  exact div_self (by unfold sumRow at ht; exact ne_of_gt ht)

lemma normalized_shares_pos (category duration users : String) :
    rowPos (normalized_shares category duration users) := by
  have hp := perturbed_shares_pos category duration users
  have ht := sumRow_pos hp
  obtain ⟨h1, h2, h3, h4⟩ := hp
  exact ⟨div_pos h1 ht, div_pos h2 ht, div_pos h3 ht, div_pos h4 ht⟩

/-- **C6** — For every category label (known or unknown), duration key and
user-scale key, the phase ratios obtained by applying the duration and scale
perturbations and dividing each ratio by the perturbed sum add up to exactly 1
(exactly, in the real-number semantics of the arithmetic). -/
theorem c6_normalization (category duration users : String) :
    sumRow (normalized_shares category duration users) = 1 :=
  normalized_shares_sum_one category duration users

/-- **C7** — For every non-negative total-hours value and all category,
duration and scale keys: each phase's hours equal
`floor(total_hours * normalized_ratio)`; each phase's cost is its hours times
the fixed per-phase rate (7000 for 要件定義・設計 and 6000 for デザイン, both
above the 5000 development/test rate); and the phase hours sum to the total
within ±(number of phases). -/
theorem c7_phase_decomposition (H : ℤ) (category duration users : String) (hH : 0 ≤ H) :
    ((calculate_phases_enhanced H category duration users).reqDesign.hours
        = ⌊(H : ℚ) * (normalized_shares category duration users).reqDesign⌋ ∧
      (calculate_phases_enhanced H category duration users).development.hours
        = ⌊(H : ℚ) * (normalized_shares category duration users).development⌋ ∧
      (calculate_phases_enhanced H category duration users).testing.hours
        = ⌊(H : ℚ) * (normalized_shares category duration users).testing⌋ ∧
      (calculate_phases_enhanced H category duration users).visualDesign.hours
        = ⌊(H : ℚ) * (normalized_shares category duration users).visualDesign⌋) ∧
    ((calculate_phases_enhanced H category duration users).reqDesign.cost
        = (calculate_phases_enhanced H category duration users).reqDesign.hours * 7000 ∧
      (calculate_phases_enhanced H category duration users).development.cost
        = (calculate_phases_enhanced H category duration users).development.hours * 5000 ∧
      (calculate_phases_enhanced H category duration users).testing.cost
        = (calculate_phases_enhanced H category duration users).testing.hours * 5000 ∧
      (calculate_phases_enhanced H category duration users).visualDesign.cost
        = (calculate_phases_enhanced H category duration users).visualDesign.hours * 6000 ∧
      (5000 : ℤ) < 7000 ∧ (5000 : ℤ) < 6000) ∧
    (H - 4 ≤ (calculate_phases_enhanced H category duration users).reqDesign.hours
        + (calculate_phases_enhanced H category duration users).development.hours
        + (calculate_phases_enhanced H category duration users).testing.hours
        + (calculate_phases_enhanced H category duration users).visualDesign.hours ∧
      (calculate_phases_enhanced H category duration users).reqDesign.hours
        + (calculate_phases_enhanced H category duration users).development.hours
        + (calculate_phases_enhanced H category duration users).testing.hours
        + (calculate_phases_enhanced H category duration users).visualDesign.hours ≤ H) := by
  obtain ⟨p1, p2, p3, p4⟩ := normalized_shares_pos category duration users
  have hsum := normalized_shares_sum_one category duration users
  have hHq : (0 : ℚ) ≤ (H : ℚ) := by exact_mod_cast hH
  have e1 : (calculate_phases_enhanced H category duration users).reqDesign.hours
      = ⌊(H : ℚ) * (normalized_shares category duration users).reqDesign⌋ :=
    pyInt_eq_floor (mul_nonneg hHq p1.le)
  have e2 : (calculate_phases_enhanced H category duration users).development.hours
      = ⌊(H : ℚ) * (normalized_shares category duration users).development⌋ :=
    pyInt_eq_floor (mul_nonneg hHq p2.le)
  have e3 : (calculate_phases_enhanced H category duration users).testing.hours
      = ⌊(H : ℚ) * (normalized_shares category duration users).testing⌋ :=
    pyInt_eq_floor (mul_nonneg hHq p3.le)
  have e4 : (calculate_phases_enhanced H category duration users).visualDesign.hours
      = ⌊(H : ℚ) * (normalized_shares category duration users).visualDesign⌋ :=
    pyInt_eq_floor (mul_nonneg hHq p4.le)
  refine ⟨⟨e1, e2, e3, e4⟩, ⟨rfl, rfl, rfl, rfl, by norm_num, by norm_num⟩, ?_, ?_⟩
  all_goals
    rw [e1, e2, e3, e4]
    have hx : (H : ℚ) * (normalized_shares category duration users).reqDesign
        + (H : ℚ) * (normalized_shares category duration users).development
        + (H : ℚ) * (normalized_shares category duration users).testing
        + (H : ℚ) * (normalized_shares category duration users).visualDesign = (H : ℚ) := by
      have : (H : ℚ) * (normalized_shares category duration users).reqDesign
          + (H : ℚ) * (normalized_shares category duration users).development
          + (H : ℚ) * (normalized_shares category duration users).testing
          + (H : ℚ) * (normalized_shares category duration users).visualDesign
          = (H : ℚ) * sumRow (normalized_shares category duration users) := by
        unfold sumRow
        ring
      rw [this, hsum, mul_one]
  · have l1 := Int.sub_one_lt_floor ((H : ℚ) * (normalized_shares category duration users).reqDesign)
    have l2 := Int.sub_one_lt_floor ((H : ℚ) * (normalized_shares category duration users).development)
    have l3 := Int.sub_one_lt_floor ((H : ℚ) * (normalized_shares category duration users).testing)
    have l4 := Int.sub_one_lt_floor ((H : ℚ) * (normalized_shares category duration users).visualDesign)
    have : (H : ℚ) - 4 < ((⌊(H : ℚ) * (normalized_shares category duration users).reqDesign⌋
        + ⌊(H : ℚ) * (normalized_shares category duration users).development⌋
        + ⌊(H : ℚ) * (normalized_shares category duration users).testing⌋
        + ⌊(H : ℚ) * (normalized_shares category duration users).visualDesign⌋ : ℤ) : ℚ) := by
      push_cast
      linarith
    have hZ : H - 4 < ⌊(H : ℚ) * (normalized_shares category duration users).reqDesign⌋
        + ⌊(H : ℚ) * (normalized_shares category duration users).development⌋
        + ⌊(H : ℚ) * (normalized_shares category duration users).testing⌋
        + ⌊(H : ℚ) * (normalized_shares category duration users).visualDesign⌋ := by
      exact_mod_cast this
    omega
  · have u1 := Int.floor_le ((H : ℚ) * (normalized_shares category duration users).reqDesign)
    have u2 := Int.floor_le ((H : ℚ) * (normalized_shares category duration users).development)
    have u3 := Int.floor_le ((H : ℚ) * (normalized_shares category duration users).testing)
    have u4 := Int.floor_le ((H : ℚ) * (normalized_shares category duration users).visualDesign)
    have : ((⌊(H : ℚ) * (normalized_shares category duration users).reqDesign⌋
        + ⌊(H : ℚ) * (normalized_shares category duration users).development⌋
        + ⌊(H : ℚ) * (normalized_shares category duration users).testing⌋
        + ⌊(H : ℚ) * (normalized_shares category duration users).visualDesign⌋ : ℤ) : ℚ) ≤ (H : ℚ) := by
      push_cast
      linarith
    exact_mod_cast this

/-- Witness for C7 at a concrete input. -/
theorem c7_phase_decomposition_witness :
    (0 : ℤ) ≤ 100 ∧
    (100 : ℤ) - 4 ≤ (calculate_phases_enhanced 100 "EC・通販" "1month" "small").reqDesign.hours
        + (calculate_phases_enhanced 100 "EC・通販" "1month" "small").development.hours
        + (calculate_phases_enhanced 100 "EC・通販" "1month" "small").testing.hours
        + (calculate_phases_enhanced 100 "EC・通販" "1month" "small").visualDesign.hours ∧
    (calculate_phases_enhanced 100 "EC・通販" "1month" "small").reqDesign.hours
        + (calculate_phases_enhanced 100 "EC・通販" "1month" "small").development.hours
        + (calculate_phases_enhanced 100 "EC・通販" "1month" "small").testing.hours
        + (calculate_phases_enhanced 100 "EC・通販" "1month" "small").visualDesign.hours ≤ 100 :=
  ⟨by norm_num,
   (c7_phase_decomposition 100 "EC・通販" "1month" "small" (by norm_num)).2.2.1,
   (c7_phase_decomposition 100 "EC・通販" "1month" "small" (by norm_num)).2.2.2⟩

/-! ### C4: single positive match -/

/-- **C4** — If exactly one (record, similarity) pair has positive similarity,
the weighted base hours and cost equal that record's stored hours and cost
exactly, whatever the similarity value is. -/
theorem c4_single_match (sims : List SimilarityEntry) (e : SimilarityEntry)
    (h : sims.filter (fun s => 0 < s.similarity) = [e]) :
    estimate_base sims
      = some ⟨(e.data.hours : ℚ), (e.data.cost : ℚ), e.similarity, "サンプルデータベース"⟩ := by
  have he_pos : 0 < e.similarity := by
    have hm : e ∈ sims.filter (fun s => 0 < s.similarity) := by
      rw [h]
      exact List.mem_singleton_self e
    have := (List.mem_filter.mp hm).2
    exact of_decide_eq_true this
  have hfeq : (pySortDesc sims).filter (fun s => 0 < s.similarity) = [e] := by
    refine List.perm_singleton.mp ?_
    have := (perm_pySortDesc sims).filter (fun s => decide (0 < s.similarity))
    rwa [h] at this
  cases hs : pySortDesc sims with
  | nil =>
    rw [hs] at hfeq
    simp at hfeq
  | cons first rest =>
    have hsorted := sorted_pySortDesc sims
    have he_mem : e ∈ pySortDesc sims := by
      have : e ∈ (pySortDesc sims).filter (fun s => 0 < s.similarity) := by
        rw [hfeq]
        exact List.mem_singleton_self e
      exact List.mem_of_mem_filter this
    rw [hs] at hsorted he_mem hfeq
    have hfirst_ge : e.similarity ≤ first.similarity := by
      rcases List.mem_cons.mp he_mem with rfl | hmem
      · exact le_refl _
      · exact List.rel_of_sorted_cons hsorted e hmem
    have hfirst_pos : 0 < first.similarity := lt_of_lt_of_le he_pos hfirst_ge
    have hfirstmem : first ∈ ((first :: rest).take 3).filter (fun s => 0 < s.similarity) := by
      refine List.mem_filter.mpr ⟨?_, decide_eq_true hfirst_pos⟩
      show first ∈ (first :: rest).take 3
      rw [show (3 : ℕ) = 2 + 1 from rfl, List.take_succ_cons]
      exact List.mem_cons_self first _
    have hsub : (((first :: rest).take 3).filter (fun s => 0 < s.similarity)).Sublist [e] := by
      rw [← hfeq]
      exact (List.take_sublist 3 (first :: rest)).filter _
    have htpfilter : ((first :: rest).take 3).filter (fun s => 0 < s.similarity) = [e] := by
      rcases List.sublist_singleton.mp hsub with h0 | h1
      · rw [h0] at hfirstmem
        exact absurd hfirstmem (List.not_mem_nil first)
      · exact h1
    have hfirst_eq : first = e := by
      rw [htpfilter] at hfirstmem
      exact List.mem_singleton.mp hfirstmem
    have htp : top_positive sims = [e] := by
      unfold top_positive
      rw [hs]
      exact htpfilter
    unfold estimate_base
    rw [hs]
    dsimp only
    rw [if_pos hfirst_pos, htp]
    simp only [List.map_cons, List.map_nil, List.sum_cons, List.sum_nil, add_zero]
    rw [if_pos he_pos, if_pos he_pos, hfirst_eq,
      mul_div_cancel_right₀ _ (ne_of_gt he_pos), mul_div_cancel_right₀ _ (ne_of_gt he_pos)]

/-- Witness for C4: a one-record retrieval result with positive similarity. -/
theorem c4_single_match_witness :
    estimate_base [⟨witnessRecord, 1⟩]
      = some ⟨(witnessRecord.hours : ℚ), (witnessRecord.cost : ℚ), 1, "サンプルデータベース"⟩ :=
  c4_single_match [⟨witnessRecord, 1⟩] ⟨witnessRecord, 1⟩ (by rfl)

/-! ### C10: the weighted base is a convex combination -/

lemma weighted_sum_le_mul (l : List SimilarityEntry) (v : SimilarityEntry → ℚ) (hi : ℚ)
    (hw : ∀ e ∈ l, 0 ≤ e.similarity) (hv : ∀ e ∈ l, v e ≤ hi) :
    (l.map (fun e => v e * e.similarity)).sum
      ≤ hi * (l.map (fun e => e.similarity)).sum := by
  induction l with
  | nil => simp
  | cons a t ih =>
    simp only [List.map_cons, List.sum_cons, mul_add]
    have h1 : v a * a.similarity ≤ hi * a.similarity :=
      mul_le_mul_of_nonneg_right (hv a (List.mem_cons_self a t))
        (hw a (List.mem_cons_self a t))
    have h2 := ih (fun e he => hw e (List.mem_cons_of_mem a he))
      (fun e he => hv e (List.mem_cons_of_mem a he))
    linarith

lemma mul_le_weighted_sum (l : List SimilarityEntry) (v : SimilarityEntry → ℚ) (lo : ℚ)
    (hw : ∀ e ∈ l, 0 ≤ e.similarity) (hv : ∀ e ∈ l, lo ≤ v e) :
    lo * (l.map (fun e => e.similarity)).sum
      ≤ (l.map (fun e => v e * e.similarity)).sum := by
  induction l with
  | nil => simp
  | cons a t ih =>
    simp only [List.map_cons, List.sum_cons, mul_add]
    have h1 : lo * a.similarity ≤ v a * a.similarity :=
      mul_le_mul_of_nonneg_right (hv a (List.mem_cons_self a t))
        (hw a (List.mem_cons_self a t))
    have h2 := ih (fun e he => hw e (List.mem_cons_of_mem a he))
      (fun e he => hv e (List.mem_cons_of_mem a he))
    linarith

/-- When the sorted list starts with a positive score and the weighted total is
positive, `estimate_base` returns the weighted means over the positive top-3
entries. -/
lemma estimate_base_of_pos {sims : List SimilarityEntry} {first : SimilarityEntry}
    {rest : List SimilarityEntry} (hs : pySortDesc sims = first :: rest)
    (hf : 0 < first.similarity)
    (hW : 0 < ((top_positive sims).map (fun s => s.similarity)).sum) :
    estimate_base sims = some
      ⟨((top_positive sims).map (fun s => (s.data.hours : ℚ) * s.similarity)).sum
          / ((top_positive sims).map (fun s => s.similarity)).sum,
        ((top_positive sims).map (fun s => (s.data.cost : ℚ) * s.similarity)).sum
          / ((top_positive sims).map (fun s => s.similarity)).sum,
        first.similarity, "サンプルデータベース"⟩ := by
  unfold estimate_base
  rw [hs]
  dsimp only
  rw [if_pos hf, if_pos hW, if_pos hW]

/-- **C10** — With at least one positive-similarity pair among the cited top
3, the weighted base hours and cost each lie between any lower and upper bound
of the matched records' stored hours and costs: the base estimate is a convex
combination of the cited records' values. -/
theorem c10_convex_combination (sims : List SimilarityEntry) (loH hiH loC hiC : ℚ)
    (hne : top_positive sims ≠ [])
    (hH : ∀ e ∈ top_positive sims, loH ≤ (e.data.hours : ℚ) ∧ (e.data.hours : ℚ) ≤ hiH)
    (hC : ∀ e ∈ top_positive sims, loC ≤ (e.data.cost : ℚ) ∧ (e.data.cost : ℚ) ≤ hiC) :
    ∃ b, estimate_base sims = some b ∧
      loH ≤ b.weighted_hours ∧ b.weighted_hours ≤ hiH ∧
      loC ≤ b.weighted_cost ∧ b.weighted_cost ≤ hiC := by
  have hpos : ∀ e ∈ top_positive sims, 0 < e.similarity := by
    intro e he
    exact of_decide_eq_true (List.mem_filter.mp he).2
  obtain ⟨e0, he0⟩ := List.exists_mem_of_ne_nil _ hne
  have he0sorted : e0 ∈ pySortDesc sims :=
    List.take_subset 3 _ (List.mem_of_mem_filter he0)
  cases hs : pySortDesc sims with
  | nil =>
    rw [hs] at he0sorted
    exact absurd he0sorted (List.not_mem_nil e0)
  | cons first rest =>
    have hsorted := sorted_pySortDesc sims
    rw [hs] at hsorted he0sorted
    have hfirst_pos : 0 < first.similarity := by
      have h0 := hpos e0 he0
      rcases List.mem_cons.mp he0sorted with rfl | hmem
      · exact h0
      · exact lt_of_lt_of_le h0 (List.rel_of_sorted_cons hsorted e0 hmem)
    have hW : 0 < ((top_positive sims).map (fun s => s.similarity)).sum := by
      apply List.sum_pos
      · intro x hx
        obtain ⟨e, he, rfl⟩ := List.mem_map.mp hx
        exact hpos e he
      · simpa using hne
    have hwnn : ∀ e ∈ top_positive sims, 0 ≤ e.similarity :=
      fun e he => (hpos e he).le
    refine ⟨_, estimate_base_of_pos hs hfirst_pos hW, ?_, ?_, ?_, ?_⟩
    · exact (le_div_iff₀ hW).mpr
        (mul_le_weighted_sum _ _ _ hwnn (fun e he => (hH e he).1))
    · exact (div_le_iff₀ hW).mpr
        (weighted_sum_le_mul _ _ _ hwnn (fun e he => (hH e he).2))
    · exact (le_div_iff₀ hW).mpr
        (mul_le_weighted_sum _ _ _ hwnn (fun e he => (hC e he).1))
    · exact (div_le_iff₀ hW).mpr
        (weighted_sum_le_mul _ _ _ hwnn (fun e he => (hC e he).2))

/-- Witness for C10 on a two-record retrieval result. -/
theorem c10_convex_combination_witness :
    ∃ b, estimate_base [⟨witnessRecord, 2⟩, ⟨witnessRecordB, 1⟩] = some b ∧
      (440 : ℚ) ≤ b.weighted_hours ∧ b.weighted_hours ≤ 880 ∧
      (2750000 : ℚ) ≤ b.weighted_cost ∧ b.weighted_cost ≤ 5500000 :=
  c10_convex_combination [⟨witnessRecord, 2⟩, ⟨witnessRecordB, 1⟩] 440 880 2750000 5500000
    (by decide) (by decide) (by decide)

/-! ### C5: the returned confidence is the top similarity, not a weighted mean -/

lemma top_positive_singleton (e : SimilarityEntry) (he : 0 < e.similarity) :
    top_positive [e] = [e] := by
  unfold top_positive
  have hsort : pySortDesc [e] = [e] := rfl
  rw [hsort]
  simp [List.filter_cons, he]

lemma estimate_base_singleton (e : SimilarityEntry) (he : 0 < e.similarity) :
    estimate_base [e]
      = some ⟨(e.data.hours : ℚ), (e.data.cost : ℚ), e.similarity, "サンプルデータベース"⟩ := by
  have htp := top_positive_singleton e he
  have hW : 0 < ((top_positive [e]).map (fun s => s.similarity)).sum := by
    rw [htp]
    simpa using he
  have hb := estimate_base_of_pos (rfl : pySortDesc [e] = e :: []) he hW
  rw [htp] at hb
  simp only [List.map_cons, List.map_nil, List.sum_cons, List.sum_nil, add_zero] at hb
  rwa [mul_div_cancel_right₀ _ (ne_of_gt he), mul_div_cancel_right₀ _ (ne_of_gt he)] at hb

/-- **C5 (counterexample)** — On a single matched record with stored confidence
1/2 and similarity 17/20 (exactly what the pipeline produces for the query
"予約" against `recHalfConf`), the code returns confidence 17/20 × 0.9 =
153/200, whereas the similarity-weighted mean of the stored confidence fields
scaled by 0.9 would be 1/2 × 0.9 = 9/20.  The claim is false. -/
theorem c5_counterexample :
    (estimate_base [⟨recHalfConf, 17/20⟩]).map (fun b => b.confidence * (9/10))
        = some (153/200) ∧
    spec_confidence_value [⟨recHalfConf, 17/20⟩] = 9/20 ∧
    (153/200 : ℚ) ≠ 9/20 := by
  have he : (0 : ℚ) < 17/20 := by norm_num
  have h1 := estimate_base_singleton ⟨recHalfConf, 17/20⟩ he
  refine ⟨?_, ?_, by norm_num⟩
  · rw [h1]
    exact congrArg some (by norm_num)
  · unfold spec_confidence_value
    rw [top_positive_singleton ⟨recHalfConf, 17/20⟩ he]
    simp only [List.map_cons, List.map_nil, List.sum_cons, List.sum_nil, add_zero]
    rw [mul_div_cancel_right₀ _ (ne_of_gt he)]
    norm_num [recHalfConf]

/-- **C5 (amended)** — The returned confidence score equals the highest
match's similarity (or the default 3/10 when no match has positive
similarity), scaled by 0.9; the matched records' stored confidence fields do
not enter it. -/
theorem c5_confidence_amended (pySet : List String → List String)
    (data : List SampleProject) (description : String) (category : Option String)
    (duration users : String) :
    (estimate_project_enhanced pySet data description category duration users).map
        (fun r => r.confidence_score)
      = ((pySortDesc (similarity_entries data description)).head?).map
          (fun first => (if 0 < first.similarity then first.similarity else 3/10) * (9/10)) := by
  cases hs : pySortDesc (similarity_entries data description) with
  | nil =>
    unfold estimate_project_enhanced estimate_base
    dsimp only
    rw [hs]
    rfl
  | cons first rest =>
    unfold estimate_project_enhanced estimate_base
    dsimp only
    rw [hs]
    dsimp only
    by_cases hf : 0 < first.similarity
    · simp only [List.head?_cons, Option.map_some']
      rw [if_pos hf, if_pos hf]
      rfl
    · simp only [List.head?_cons, Option.map_some']
      rw [if_neg hf, if_neg hf]
      rfl

/-! ### C1: the duration factor adjusts hours only, the scale factor cost only -/

/-- The endpoint's final totals are exactly: duration adjustment applied to the
truncated base hours, and user-scale adjustment applied to the truncated base
cost — each factor touches only its own quantity. -/
lemma estimate_totals_decompose (pySet : List String → List String)
    (data : List SampleProject) (description : String) (category : Option String)
    (duration users : String) :
    (estimate_project_enhanced pySet data description category duration users).map
        (fun r => (r.total_hours, r.total_cost))
      = (estimate_base (similarity_entries data description)).map
          (fun b => ((calculate_duration_impact duration (pyInt b.weighted_hours)).1,
            (calculate_user_scale_impact users (pyInt b.weighted_cost)).1)) := by
  unfold estimate_project_enhanced
  dsimp only
  cases estimate_base (similarity_entries data description) <;> rfl

/-- Evaluation of `calculate_similarity_enhanced` once the two keyword sets are
known. -/
lemma calculate_similarity_eq (d : String) (p : SampleProject) (kd kp : Finset String)
    (hd : extract_keywords (pyLower d) = kd)
    (hp : extract_keywords
        (pyLower (p.title ++ " " ++ p.description ++ " "
          ++ String.intercalate " " p.features)) = kp)
    (hne : ¬(kd = ∅ ∧ kp = ∅)) (hu : kd ∪ kp ≠ ∅) :
    calculate_similarity_enhanced d p
      = ((kd ∩ kp).card : ℚ) / ((kd ∪ kp).card : ℚ) * (7/10 + 3/10 * p.confidence) := by
  unfold calculate_similarity_enhanced
  dsimp only
  rw [hd, hp, if_neg hne, if_pos hu]

lemma sim_yoyaku : calculate_similarity_enhanced "予約" recYoyaku = 1 := by
  have h := calculate_similarity_eq "予約" recYoyaku {"予約"} {"予約"} (by decide) (by decide)
      (by decide) (by decide)
  rw [h]
  norm_num [Finset.card_singleton, recYoyaku]

lemma base_yoyaku :
    estimate_base (similarity_entries [recYoyaku] "予約")
      = some ⟨400, 2000000, 1, "サンプルデータベース"⟩ := by
  have h : similarity_entries [recYoyaku] "予約" = [⟨recYoyaku, 1⟩] := by
    unfold similarity_entries
    rw [List.map_cons, List.map_nil, sim_yoyaku]
  rw [h, estimate_base_singleton ⟨recYoyaku, 1⟩ (by norm_num)]
  norm_num [recYoyaku]

/-- **C1 (counterexample)** — For the request "予約" over a corpus whose only
record matches with similarity 1 (base hours 400, base cost 2,000,000), with
duration "6-12months" and scale "enterprise", the code returns final hours
`int(400 * 1.2) = 480`, not `int(400 * 1.2 * 2.5) = 1200` as claimed: the
user-scale factor is never applied to the hours (and, dually, final cost is
`int(2000000 * 2.5) = 5000000`, without the duration factor). -/
theorem c1_counterexample :
    (estimate_project_enhanced List.dedup [recYoyaku] "予約" none "6-12months" "enterprise").map
        (fun r => (r.total_hours, r.total_cost)) = some (480, 5000000) ∧
    (480 : ℤ) ≠ pyInt ((400 : ℚ) * (6/5) * (5/2)) := by
  constructor
  · rw [estimate_totals_decompose, base_yoyaku, Option.map_some']
    refine congrArg some ?_
    unfold calculate_duration_impact calculate_user_scale_impact
    rw [show duration_info "6-12months" = (6/5, "中") from rfl,
      show user_scale_adjustments "enterprise"
        = ⟨5/2, "エンタープライズ",
          ["マイクロサービス", "API Gateway", "セキュリティ強化", "バックアップシステム"],
          "エンタープライズ級・セキュリティ重視"⟩ from rfl]
    have h1 : pyInt (400 : ℚ) = 400 := by norm_num [pyInt]
    have h2 : pyInt (2000000 : ℚ) = 2000000 := by norm_num [pyInt]
    rw [h1, h2]
    norm_num [pyInt]
  · norm_num [pyInt]

/-- **C1 (amended)** — For every request, final total hours are
`int(int(base_hours) * duration_multiplier)` and final total cost is
`int(int(base_cost) * scale_multiplier)`: each is the integer-truncated
product of its base value with exactly one factor (duration for hours, user
scale for cost; there is no complexity factor in the code).  In particular,
for "6-12months" the hours factor is 1.2 and for "enterprise" the cost factor
is 2.5. -/
theorem c1_totals_amended (pySet : List String → List String)
    (data : List SampleProject) (description : String) (category : Option String)
    (duration users : String) :
    ((estimate_project_enhanced pySet data description category duration users).map
        (fun r => (r.total_hours, r.total_cost))
      = (estimate_base (similarity_entries data description)).map
          (fun b => ((calculate_duration_impact duration (pyInt b.weighted_hours)).1,
            (calculate_user_scale_impact users (pyInt b.weighted_cost)).1))) ∧
    (∀ b : ℤ, (calculate_duration_impact "6-12months" b).1 = pyInt ((b : ℚ) * (6/5))) ∧
    (∀ c : ℤ, (calculate_user_scale_impact "enterprise" c).1 = pyInt ((c : ℚ) * (5/2))) :=
  ⟨estimate_totals_decompose pySet data description category duration users,
   fun _ => rfl, fun _ => rfl⟩

/-! ### C9: reproducibility across runs -/

lemma sim_plain : calculate_similarity_enhanced "" recPlain = 0 := rfl

lemma base_plain :
    estimate_base (similarity_entries [recPlain] "")
      = some ⟨400, 2000000, 3/10, "デフォルト見積もり"⟩ := by
  have h : similarity_entries [recPlain] "" = [⟨recPlain, 0⟩] := by
    unfold similarity_entries
    rw [List.map_cons, List.map_nil, sim_plain]
  rw [h]
  rfl

/-- Over the one-record corpus `[recPlain]` with an empty query, the feature
list the endpoint returns is the enumeration (by the set-order function `o`)
of the deduplicated feature pool, truncated to 15. -/
lemma endpoint_features_plain (o : List String → List String) :
    (estimate_project_enhanced o [recPlain] "" none "2months" "medium").map
        (fun r => r.estimated_features)
      = some ((o ((estimate_features_with_requirements o "" "2months" "medium")
          ++ (user_scale_adjustments "medium").additional_features.take 3)).take 15) := by
  unfold estimate_project_enhanced
  dsimp only
  rw [base_plain]
  rfl

/-- **C9 (counterexample)** — Two runs on identical inputs and corpus state
can return different results: the feature list is built with
`list(set(features))[:15]`, whose enumeration order depends on the per-process
string hash seed.  Taking two valid set-enumeration orders (first-occurrence
order, and its reverse) over the same corpus and request yields different
`estimated_features`, hence different results. -/
theorem c9_counterexample :
    validPySet List.dedup ∧ validPySet (fun xs => (List.dedup xs).reverse) ∧
    estimate_project_enhanced List.dedup [recPlain] "" none "2months" "medium"
      ≠ estimate_project_enhanced (fun xs => (List.dedup xs).reverse)
          [recPlain] "" none "2months" "medium" := by
  refine ⟨?_, ?_, ?_⟩
  · intro xs
    exact ⟨List.nodup_dedup xs, fun a => List.mem_dedup⟩
  · intro xs
    refine ⟨List.nodup_reverse.mpr (List.nodup_dedup xs), fun a => ?_⟩
    rw [List.mem_reverse]
    exact List.mem_dedup
  · intro h
    have hf := congrArg (Option.map (fun r => r.estimated_features)) h
    rw [endpoint_features_plain, endpoint_features_plain] at hf
    exact absurd hf (by decide)

/-- **C9 (amended)** — Every field of the result except the feature list is a
pure function of the request and corpus state and so is identical across runs
(for ANY two set-enumeration orders); the feature list is additionally
identical whenever the two runs share the same set-enumeration order, e.g.
within one process. -/
theorem c9_determinism_amended (o1 o2 : List String → List String)
    (data : List SampleProject) (description : String) (category : Option String)
    (duration users : String) :
    (estimate_project_enhanced o1 data description category duration users).map
        (fun r => (r.project_description, r.total_hours, r.total_cost, r.phases,
          r.similar_projects, r.confidence_score, r.data_source))
      = (estimate_project_enhanced o2 data description category duration users).map
          (fun r => (r.project_description, r.total_hours, r.total_cost, r.phases,
            r.similar_projects, r.confidence_score, r.data_source)) := by
  unfold estimate_project_enhanced
  dsimp only
  cases estimate_base (similarity_entries data description) <;> rfl

/-! ### C3: the search contract and its tie-break order -/

lemma argsortAsc_sorted (v : List ℚ) : List.Sorted (argRel v) (argsortAsc v) :=
  List.sorted_insertionSort _ _

lemma argsortAsc_perm (v : List ℚ) : (argsortAsc v).Perm (List.range v.length) :=
  List.perm_insertionSort _ _

lemma argsortAsc_nodup (v : List ℚ) : (argsortAsc v).Nodup :=
  (argsortAsc_perm v).nodup_iff.mpr (List.nodup_range _)

/-- The stable ascending argsort is strictly sorted by (value, index). -/
lemma argsortAsc_pairwise_strict (v : List ℚ) :
    List.Pairwise (fun i j => v.getD i 0 < v.getD j 0
      ∨ (v.getD i 0 = v.getD j 0 ∧ i < j)) (argsortAsc v) := by
  have h := List.Pairwise.and (argsortAsc_sorted v) (argsortAsc_nodup v)
  refine h.imp ?_
  rintro i j ⟨hr | ⟨heq, hle⟩, hne⟩
  · exact Or.inl hr
  · exact Or.inr ⟨heq, lt_of_le_of_ne hle hne⟩

lemma pyTakeLast_sublist (k : ℕ) (l : List α) : (pyTakeLast k l).Sublist l := by
  unfold pyTakeLast
  split_ifs
  · exact List.Sublist.refl l
  · exact List.drop_sublist _ _

/-- The returned index sequence is strictly ordered by descending score, with
equal scores in descending (reverse-corpus) index order. -/
lemma find_similar_indices_pairwise (sims : List ℚ) (k : ℕ) :
    List.Pairwise (fun i j => sims.getD j 0 < sims.getD i 0
      ∨ (sims.getD i 0 = sims.getD j 0 ∧ j < i)) (find_similar_indices sims k) := by
  unfold find_similar_indices
  apply List.Pairwise.sublist (List.filter_sublist _)
  rw [List.pairwise_reverse]
  apply List.Pairwise.sublist (pyTakeLast_sublist k _)
  refine (argsortAsc_pairwise_strict sims).imp ?_
  rintro i j (hlt | ⟨heq, hij⟩)
  · exact Or.inl hlt
  · exact Or.inr ⟨heq.symm, hij⟩

lemma find_similar_indices_length (sims : List ℚ) (k : ℕ) (hk : 1 ≤ k) :
    (find_similar_indices sims k).length ≤ k := by
  unfold find_similar_indices
  calc (((pyTakeLast k (argsortAsc sims)).reverse).filter
          (fun idx => (1 : ℚ) / 10 < sims.getD idx 0)).length
      ≤ ((pyTakeLast k (argsortAsc sims)).reverse).length := List.length_filter_le _ _
    _ = (pyTakeLast k (argsortAsc sims)).length := List.length_reverse _
    _ ≤ k := by
        unfold pyTakeLast
        rw [if_neg (by omega : ¬k = 0), List.length_drop]
        omega

lemma find_similar_indices_threshold (sims : List ℚ) (k : ℕ) :
    ∀ i ∈ find_similar_indices sims k, (1 : ℚ) / 10 < sims.getD i 0 := by
  intro i hi
  unfold find_similar_indices at hi
  exact of_decide_eq_true (List.mem_filter.mp hi).2

/-- **C3 (counterexample)** — Two failures of the claim, each at a concrete
input.  (a) Tie-break: with the two-record corpus `[projA, projB]` and equal
scores `[1, 1]`, `argsort()[-k:][::-1]` yields indices `[1, 0]`, so the
second-seen `projB` is returned before the first-seen `projA` — "first-seen
wins" is false.  (On a 2-element array numpy's argsort is its insertion sort,
which is stable, so this is the program's actual behavior, not an artifact of
the model.)  (b) Length: for `k = 0` the Python slice `[-0:]` is `[0:]`, the
whole array, so the search returns 1 > k pairs — "at most k" fails at k = 0. -/
theorem c3_counterexample :
    (find_similar_projects [projA, projB] [1, 1] true 5 = [(projB, 1), (projA, 1)] ∧
      (projB, (1 : ℚ)) ≠ (projA, 1)) ∧
    (find_similar_projects [projA] [1] true 0 = [(projA, 1)] ∧
      ¬(find_similar_projects [projA] [1] true 0).length ≤ 0) := by
  refine ⟨⟨?_, ?_⟩, ?_, ?_⟩
  · have h2 : find_similar_indices [1, 1] 5 = [1, 0] := by
      unfold find_similar_indices
      rw [show (pyTakeLast 5 (argsortAsc [1, 1])).reverse = [1, 0] from by decide]
      simp only [List.filter_cons, List.filter_nil, decide_eq_true_eq,
        List.getD_cons_succ, List.getD_cons_zero]
      norm_num
    unfold find_similar_projects
    rw [if_neg (by simp), h2]
    rfl
  · intro h
    exact absurd (congrArg (fun p => p.1.title) h) (by decide)
  · have h0 : find_similar_indices [1] 0 = [0] := by
      unfold find_similar_indices
      rw [show (pyTakeLast 0 (argsortAsc [1])).reverse = [0] from by decide]
      simp only [List.filter_cons, List.filter_nil, decide_eq_true_eq,
        List.getD_cons_zero]
      norm_num
    unfold find_similar_projects
    rw [if_neg (by simp), h0]
    rfl
  · have h0 : find_similar_indices [1] 0 = [0] := by
      unfold find_similar_indices
      rw [show (pyTakeLast 0 (argsortAsc [1])).reverse = [0] from by decide]
      simp only [List.filter_cons, List.filter_nil, decide_eq_true_eq,
        List.getD_cons_zero]
      norm_num
    unfold find_similar_projects
    rw [if_neg (by simp), h0]
    simp

/-- **C3 (amended)** — For every score row and every `k ≥ 1` (the `k = 0`
exclusion is forced by the counterexample's slice degeneracy): the search
returns at most `k` (record, score) pairs, scores are sorted non-increasing,
and every returned score exceeds the fixed 0.1 threshold.  No tie order is
asserted: "first-seen wins" is refuted by the counterexample, and numpy's
default argsort is not stable, so the program guarantees no order among equal
scores in general. -/
theorem c3_search_contract_amended (projects : List ProcessedProject) (sims : List ℚ)
    (fitted : Bool) (k : ℕ) (hk : 1 ≤ k) :
    (find_similar_projects projects sims fitted k).length ≤ k ∧
    List.Pairwise (fun a b => b.2 ≤ a.2) (find_similar_projects projects sims fitted k) ∧
    (∀ pr ∈ find_similar_projects projects sims fitted k, (1 : ℚ) / 10 < pr.2) := by
  refine ⟨?_, ?_, ?_⟩ <;> cases fitted
  · simp [find_similar_projects]
  · unfold find_similar_projects
    rw [if_neg (by simp), List.length_map]
    exact find_similar_indices_length sims k hk
  · simp [find_similar_projects]
  · unfold find_similar_projects
    rw [if_neg (by simp)]
    rw [List.pairwise_map]
    refine (find_similar_indices_pairwise sims k).imp ?_
    rintro i j (hlt | ⟨heq, _⟩)
    · exact hlt.le
    · exact heq.ge
  · simp [find_similar_projects]
  · unfold find_similar_projects
    rw [if_neg (by simp)]
    intro pr hpr
    obtain ⟨i, hi, rfl⟩ := List.mem_map.mp hpr
    exact find_similar_indices_threshold sims k i hi

/-- Witness for C3 (amended) at a concrete search. -/
theorem c3_search_contract_witness :
    (find_similar_projects [projA] [1] true 3).length ≤ 3 ∧
    List.Pairwise (fun a b => b.2 ≤ a.2) (find_similar_projects [projA] [1] true 3) ∧
    (∀ pr ∈ find_similar_projects [projA] [1] true 3, (1 : ℚ) / 10 < pr.2) :=
  c3_search_contract_amended [projA] [1] true 3 (by norm_num)
